import Mathlib

/-!
Verification of the ok777-backend reconciliation core: deposit
detection/dedup/crediting, the withdrawal engine, and the exchange-rate
oracle wrapper.  Each definition is a shallow embedding of one function of
the TypeScript sources; JS numbers carrying exact amounts are modelled as
rationals, a JS value that may be NaN as an `Option`, and each fallible
store or RPC call as an `Except` or an explicit outcome parameter.
-/

namespace Ok777

/-! ## Exchange-rate oracle (`src/utils/exchange.ts`)

`getRate` fetches live USD prices for TRX/ETH/SOL over HTTP; the fetched
values are a parameter of the model.  `convert` first normalises both
symbols with `toUpperCase`, then looks each up in the `toUSDT` table; an
unsupported symbol yields `undefined`, which propagates through the
multiplication and division as NaN.  `none` models NaN, `some q` a finite
numeric result. -/

structure Rates where
  trx : ℚ
  eth : ℚ
  sol : ℚ
  deriving Repr, DecidableEq

/-- The `toUSDT` lookup table built inside `convert`: a plain object keyed by
the six supported symbols, indexed with the normalised symbol.  A key that is
absent gives `undefined`, modelled as `none`. -/
def toUSDT (r : Rates) (sym : String) : Option ℚ :=
  if sym == "TRX" then some r.trx
  else if sym == "ETH" then some r.eth
  else if sym == "SOL" then some r.sol
  else if sym == "USD" then some 1
  else if sym == "USDT" then some 1
  else if sym == "USDC" then some 1
  else none

/-- JS multiplication where either operand may be NaN (`undefined` coerces to
NaN): NaN absorbs. -/
def jsMul : Option ℚ → Option ℚ → Option ℚ
  | some a, some b => some (a * b)
  | _, _ => none

/-- JS division where either operand may be NaN: NaN absorbs.  The divisors
reached in this development are table entries, never zero. -/
def jsDiv : Option ℚ → Option ℚ → Option ℚ
  | some a, some b => some (a / b)
  | _, _ => none

/-- The `convert(amount, fromSymbol, toSymbol)` body: normalise both symbols
to upper case, take `amount * toUSDT[from] / toUSDT[to]`. -/
def convert (r : Rates) (amount : ℚ) (fromSymbol toSymbol : String) : Option ℚ :=
  let normalizedFromSymbol := fromSymbol.toUpper
  let normalizedToSymbol := toSymbol.toUpper
  let amountInUSDT := jsMul (some amount) (toUSDT r normalizedFromSymbol)
  jsDiv amountInUSDT (toUSDT r normalizedToSymbol)

/-- The six symbols the `toUSDT` table supports. -/
def supportedSymbols : List String := ["TRX", "ETH", "SOL", "USD", "USDT", "USDC"]

/-- The three symbols the table pins to 1 USD. -/
def stableSymbols : List String := ["USD", "USDT", "USDC"]

/-! ## Persistent store (the Prisma `deposit` and `balance` tables)

The store is the pair of tables the deposit pipeline touches.  Amounts are
exact rationals.  `rate`, `realArrival`, `fromAddress` and `blockNumber` are
nullable columns, modelled as `Option`. -/

structure DepositRow where
  userId : Nat
  orderId : String
  txHash : String
  fromAddress : Option String
  toAddress : String
  currency : String
  network : String
  amount : ℚ
  rate : Option ℚ
  realArrival : Option ℚ
  status : String
  type : String
  blockNumber : Option Int
  confirmations : Nat
  deriving Repr, DecidableEq

structure BalanceRow where
  userId : Nat
  currency : String
  amount : ℚ
  deriving Repr, DecidableEq

structure DB where
  deposits : List DepositRow
  balances : List BalanceRow
  deriving Repr, DecidableEq

/-- Number of deposit rows carrying a given `txHash` — the observable of the
global-uniqueness invariant. -/
def DB.countTx (db : DB) (t : String) : Nat :=
  db.deposits.countP (fun r => r.txHash == t)

/-- The `prisma.deposit.findFirst({ where: { txHash } })` query used by
`isTransactionProcessed`. -/
def DB.findDeposit (db : DB) (t : String) : Option DepositRow :=
  db.deposits.find? (fun r => r.txHash == t)

inductive DbError where
  | duplicateTxHash
  deriving Repr, DecidableEq

/-- Modelled from the spec: `Store.createDeposit(record)` "fails with
`DuplicateTxHash` if `txHash` already exists".  The Prisma schema itself is
not among the analysed sources, but its unique index on `txHash` is witnessed
by `prisma.deposit.findUnique({ where: { txHash } })` and
`prisma.deposit.update({ where: { txHash } })` in the repository's db layer
(both require a unique column).  `prisma.deposit.create` therefore rejects a
row whose `txHash` is already present and otherwise inserts it atomically. -/
def DB.createDeposit (db : DB) (row : DepositRow) : Except DbError DB :=
  if db.deposits.any (fun r => r.txHash == row.txHash) then .error .duplicateTxHash
  else .ok { db with deposits := row :: db.deposits }

/-- The balance upsert run by the deposit processors (`prisma.$transaction`
body in `processDeposit`, and `updateUserBalanceAfterDeposit` in the db
layer, which has the same find-then-create-or-increment shape): find the
(userId, currency) row; create it with `amount` if absent, else increment. -/
def DB.creditBalance (db : DB) (userId : Nat) (currency : String) (amount : ℚ) : DB :=
  match db.balances.find? (fun b => b.userId == userId && b.currency == currency) with
  | none => { db with balances := ⟨userId, currency, amount⟩ :: db.balances }
  | some _ =>
      { db with
        balances := db.balances.map (fun b =>
          if b.userId == userId && b.currency == currency then
            { b with amount := b.amount + amount }
          else b) }

/-- The ledger balance of a (userId, currency) pair, 0 when no row exists. -/
def DB.balanceOf (db : DB) (userId : Nat) (currency : String) : ℚ :=
  match db.balances.find? (fun b => b.userId == userId && b.currency == currency) with
  | none => 0
  | some b => b.amount

/-! ## The deposit listeners' processing pipeline
(`src/blockchain/depositListeners/solana.ts`; `tron.ts` and `ethereum.ts`
carry the same `isTransactionProcessed`/`processDeposit` bodies parameterised
by currency and network). -/

/-- Outcome of the two `convert` calls inside the listeners' `processDeposit`
(`rate = await convert(1, cur, 'USD'); realArrival = await convert(amount, cur, 'USD')`,
with defaults `rate = 1`, `realArrival = amount` and a catch that merely logs):
`none` — the first call threw, both defaults stand; `some (r, none)` — the
first call returned `r` and the second threw; `some (r, some v)` — both calls
returned. -/
def listenerRateFallback (amount : ℚ) : Option (ℚ × Option ℚ) → ℚ × ℚ
  | none => (1, amount)
  | some (r, none) => (r, amount)
  | some (r, some v) => (r, v)

/-- A candidate transfer handed to the pipeline, together with the
environmental outcomes fixed for its processing (generated orderId, oracle
responses). -/
structure Candidate where
  userId : Nat
  txHash : String
  fromAddress : String
  toAddress : String
  amount : ℚ
  blockNumber : Int
  currency : String
  network : String
  orderId : String
  oracle : Option (ℚ × Option ℚ)
  deriving Repr, DecidableEq

/-- The deposit row the listener `processDeposit` passes to
`prisma.deposit.create`. -/
def Candidate.row (c : Candidate) : DepositRow :=
  let rr := listenerRateFallback c.amount c.oracle
  { userId := c.userId, orderId := c.orderId, txHash := c.txHash,
    fromAddress := some c.fromAddress, toAddress := c.toAddress,
    currency := c.currency, network := c.network, amount := c.amount,
    rate := some rr.1, realArrival := some rr.2,
    status := "confirmed", type := "crypto",
    blockNumber := some c.blockNumber, confirmations := 1 }

inductive ProcessError where
  | storeError
  deriving Repr, DecidableEq

/-- The listener `processDeposit` (depositListeners/solana.ts lines 99-172):
compute rate/realArrival with the 1:1 fallback, `prisma.deposit.create` the
record, then — in a second, separate store transaction — upsert the user
balance, then add the hash to the in-memory set.  `creditOk = false` models
the balance-upsert transaction itself failing after the insert committed:
the error propagates out of `processDeposit` and the hash is not marked
seen.  The returned pair is (thrown or not, store + seen-set afterwards). -/
def processDeposit (c : Candidate) (creditOk : Bool) (db : DB) (seen : List String) :
    Except ProcessError Unit × DB × List String :=
  match db.createDeposit c.row with
  | .error _ => (.error .storeError, db, seen)
  | .ok db1 =>
      if creditOk then
        (.ok (), db1.creditBalance c.userId c.currency c.amount, c.txHash :: seen)
      else
        (.error .storeError, db1, seen)

/-- isTransactionProcessed (depositListeners/solana.ts lines 45-60): consult
the in-memory set first, then the store; a store hit is cached in the set. -/
def isTransactionProcessed (txHash : String) (db : DB) (seen : List String) :
    Bool × List String :=
  if seen.contains txHash then (true, seen)
  else
    match db.findDeposit txHash with
    | some _ => (true, txHash :: seen)
    | none => (false, seen)

/-- One iteration of the signature loop of monitorSolanaAddress
(depositListeners/solana.ts lines 184-220): skip when already processed,
else run `processDeposit`; an error thrown there is caught (`continue`),
keeping whatever the store already committed. -/
def monitorHandle (c : Candidate) (creditOk : Bool) (db : DB) (seen : List String) :
    DB × List String :=
  match isTransactionProcessed c.txHash db seen with
  | (true, seen') => (db, seen')
  | (false, seen') => (processDeposit c creditOk db seen').2

/-! ### Interleaved executions of the pipeline

The pipeline body `if (await isTransactionProcessed(txHash)) continue;
try { await processDeposit(...) } catch { continue }` is cut at its store
suspension points; two invocations for the same candidate may interleave
arbitrarily between those points (overlapping poll timers).  Each program
counter value names the next store operation the invocation will perform. -/

inductive PC where
  | checkSeen
  | checkDb
  | create
  | credit
  | markSeen
  | done
  | skipped
  | failed
  deriving Repr, DecidableEq

structure Shared where
  db : DB
  seen : List String
  deriving Repr, DecidableEq

/-- One atomic step of a pipeline invocation: `checkSeen`/`checkDb` are the
two halves of `isTransactionProcessed`, `create` the deposit insert (which
rejects a duplicate txHash, aborting the invocation — the loop catches the
error), `credit` the balance-upsert transaction, `markSeen` the in-memory
set update.  The oracle calls sit between `checkDb` and `create` but touch
no shared state, so they add no distinct interleaving. -/
def stepProc (c : Candidate) : PC → Shared → PC × Shared
  | .checkSeen, s => if s.seen.contains c.txHash then (.skipped, s) else (.checkDb, s)
  | .checkDb, s =>
      match s.db.findDeposit c.txHash with
      | some _ => (.skipped, { s with seen := c.txHash :: s.seen })
      | none => (.create, s)
  | .create, s =>
      match s.db.createDeposit c.row with
      | .error _ => (.failed, s)
      | .ok db1 => (.credit, { s with db := db1 })
  | .credit, s =>
      (.markSeen, { s with db := s.db.creditBalance c.userId c.currency c.amount })
  | .markSeen, s => (.done, { s with seen := c.txHash :: s.seen })
  | pc, s => (pc, s)

structure Config where
  pc1 : PC
  pc2 : PC
  sh : Shared
  deriving Repr, DecidableEq

/-- Schedule-driven interleaving: `true` steps the first invocation,
`false` the second. -/
def step (c : Candidate) (cfg : Config) (b : Bool) : Config :=
  if b then
    let p := stepProc c cfg.pc1 cfg.sh
    { cfg with pc1 := p.1, sh := p.2 }
  else
    let p := stepProc c cfg.pc2 cfg.sh
    { cfg with pc2 := p.1, sh := p.2 }

def run (c : Candidate) (sched : List Bool) (cfg : Config) : Config :=
  sched.foldl (step c) cfg

/-- Has this invocation inserted its deposit row (and not aborted)? -/
def PC.createdFlag : PC → Nat
  | .credit => 1
  | .markSeen => 1
  | .done => 1
  | _ => 0

/-- Has this invocation applied its balance credit? -/
def PC.creditedFlag : PC → Nat
  | .markSeen => 1
  | .done => 1
  | _ => 0

def PC.terminal : PC → Bool
  | .done => true
  | .skipped => true
  | .failed => true
  | _ => false

/-- The inductive invariant of two interleaved invocations for the same
fresh candidate: the store holds exactly as many rows for the txHash as
invocations that passed their insert, at most one invocation passes it, the
ledger balance reflects exactly the applied credits, and a seen/skip/abort
observation certifies that the row exists. -/
def InvP (c : Candidate) (b0 : ℚ) (pcA pcB : PC) (sh : Shared) : Prop :=
  sh.db.countTx c.txHash = pcA.createdFlag + pcB.createdFlag
  ∧ pcA.createdFlag + pcB.createdFlag ≤ 1
  ∧ sh.db.balanceOf c.userId c.currency
      = b0 + (pcA.creditedFlag + pcB.creditedFlag : ℕ) * c.amount
  ∧ (sh.seen.contains c.txHash = true → sh.db.countTx c.txHash = 1)
  ∧ (pcA = .skipped → sh.db.countTx c.txHash = 1)
  ∧ (pcB = .skipped → sh.db.countTx c.txHash = 1)
  ∧ (pcA = .failed → sh.db.countTx c.txHash = 1)
  ∧ (pcB = .failed → sh.db.countTx c.txHash = 1)

/-! ## The db-layer deposit pipeline (`src/db/deposits.ts`,
`src/blockchain/solana-deposits.ts`)

The second deposit pipeline goes through the repository helpers: `createDeposit`
(pending row, null rate on oracle failure), `updateDepositStatus` and
`updateUserBalanceAfterDeposit` (the same find-then-create-or-increment upsert
as `DB.creditBalance`). -/

/-- The row the db-layer createDeposit hands to `prisma.deposit.create`:
`rate`/`realArrival` are null when the oracle call threw; for USD they are
pinned without an oracle call; status starts as "pending". -/
def pendingRow (userId : Nat) (txHash : String) (fromAddress : Option String)
    (toAddress currency network : String) (amount : ℚ) (blockNumber : Option Int)
    (confirmations : Option Nat) (orderId : String) (oracle : Option ℚ) : DepositRow :=
  let rr : Option ℚ × Option ℚ :=
    if currency == "USD" then (some 1, some amount)
    else
      match oracle with
      | none => (none, none)
      | some r => (some r, some (amount * r))
  { userId := userId, orderId := orderId, txHash := txHash, fromAddress := fromAddress,
    toAddress := toAddress, currency := currency, network := network, amount := amount,
    rate := rr.1, realArrival := rr.2, status := "pending", type := "crypto",
    blockNumber := blockNumber, confirmations := confirmations.getD 0 }

/-- createDeposit from `src/db/deposits.ts` lines 40-96: compute
rate/realArrival (null fallback on oracle failure, `realArrival = amount * rate`
otherwise), then insert the pending record.  No balance is touched here. -/
def createDeposit (userId : Nat) (txHash : String) (fromAddress : Option String)
    (toAddress currency network : String) (amount : ℚ) (blockNumber : Option Int)
    (confirmations : Option Nat) (orderId : String) (oracle : Option ℚ)
    (db : DB) : Except DbError (DB × DepositRow) :=
  let row := pendingRow userId txHash fromAddress toAddress currency network amount
    blockNumber confirmations orderId oracle
  match db.createDeposit row with
  | .error e => .error e
  | .ok db1 => .ok (db1, row)

/-- updateDepositStatus from `src/db/deposits.ts` lines 99-138: set the
status (and confirmations when given) of the row keyed by `txHash`. -/
def updateDepositStatus (txHash status : String) (confirmations : Option Nat)
    (db : DB) : DB :=
  { db with
    deposits := db.deposits.map (fun r =>
      if r.txHash == txHash then
        { r with status := status, confirmations := confirmations.getD r.confirmations }
      else r) }

/-- The deposit branch of processSolanaTransaction (solana-deposits.ts lines
125-158) for a detected positive SOL transfer to a monitored address: dedup
via `depositExists` (`prisma.deposit.count > 0`), then `createDeposit`, mark
confirmed, credit via `updateUserBalanceAfterDeposit`.  An error thrown by
the store is caught by the surrounding try, abandoning the rest. -/
def processSolanaTransaction (userId : Nat) (signature : String)
    (fromAddress : Option String) (toAddress : String) (amount : ℚ) (slot : Int)
    (orderId : String) (oracle : Option ℚ) (db : DB) : DB :=
  if 0 < db.countTx signature then db
  else
    match createDeposit userId signature fromAddress toAddress "SOL" "Solana" amount
        (some slot) (some 1) orderId oracle db with
    | .error _ => db
    | .ok (db1, _) =>
        (updateDepositStatus signature "confirmed" (some 1) db1).creditBalance
          userId "SOL" amount

/-- The 5 ETH candidate with a failing oracle used to witness the
oracle-degradation behaviour of the listener pipeline. -/
def ethCandidateNoOracle : Candidate :=
  { userId := 7, txHash := "sig6", fromAddress := "S", toAddress := "A",
    amount := 5, blockNumber := 3, currency := "ETH", network := "Ethereum",
    orderId := "ETH_3", oracle := none }

/-! ## Withdrawal engine (`unnamed/part_002` for Solana, `src/blockchain/tron.ts`
for Tron)

Each withdrawal call is modelled as a pure function of its arguments and of
the environmental outcomes it observes (address validity, on-chain pool
balance in base units, chain-submission success).  The outcome collects every
externally visible effect. -/

inductive WithdrawErr where
  | invalidAddress
  | insufficientPool
  | belowMinReserve
  | txFailed
  deriving Repr, DecidableEq

/-- A persisted Transaction row, as written by
`saveTransaction(userId, address, amount, currency, txId, type)`. -/
structure TxRecord where
  userId : Nat
  address : String
  amount : ℚ
  currency : String
  txId : String
  type : String
  deriving Repr, DecidableEq

instance {e a : Type} [DecidableEq e] [DecidableEq a] : DecidableEq (Except e a)
  | .ok x, .ok y =>
      if h : x = y then .isTrue (by rw [h]) else .isFalse (by intro hx; cases hx; exact h rfl)
  | .ok _, .error _ => .isFalse (by intro hx; cases hx)
  | .error _, .ok _ => .isFalse (by intro hx; cases hx)
  | .error x, .error y =>
      if h : x = y then .isTrue (by rw [h]) else .isFalse (by intro hx; cases hx; exact h rfl)

/-- Observable effects of one withdrawal call: chain transfers submitted
(recipient, amount in chain base units), Transaction rows persisted,
`minusBalance` ledger debits issued, whether a recipient token account was
created, and the returned value or thrown error. -/
structure WithdrawOutcome where
  submitted : List (String × ℤ)
  records : List TxRecord
  debits : List (Nat × ℚ × String)
  createdTokenAccount : Bool := false
  result : Except WithdrawErr String
  deriving Repr, DecidableEq

def SOL_WITHDRAWAL_FEE : ℚ := 5 / 1000

def USDC_WITHDRAWAL_FEE : ℚ := 1

def MIN_SOL_BALANCE : ℚ := 1 / 100

def MIN_USDC_BALANCE : ℚ := 1

def LAMPORTS_PER_SOL : ℤ := 1000000000

/-- BigNumber#toFixed(0) with its default ROUND_HALF_UP mode, for the
nonnegative amounts that reach it. -/
def jsToFixed0 (q : ℚ) : ℤ := ⌊q + 1/2⌋

/-- parseInt(amount.toString()) for a nonnegative finite JS number printed in
plain decimal notation (exact for 10^-6 ≤ amount < 10^21, where toString
uses no exponent): the digits after the decimal point are dropped. -/
def jsParseIntOfNumber (q : ℚ) : ℤ := ⌊q⌋

/-- withdrawSol (unnamed/part_002 lines 130-211): validate the address,
compute `total = amount + fee`, convert the TOTAL into lamports rounding down,
require the pool's lamport balance covering it, require the pool keeping
`MIN_SOL_BALANCE` after the total, then submit a transfer of the TOTAL at
the recipient; on success persist a `-amount` "withdraw" Transaction row,
debit the user ledger by `amount` and return the signature.  `validTo`
models `isValidSolanaAddress(to)`, `poolLamports` the pool balance read
on-chain, `submitOk`/`sig` the `sendAndConfirmTransaction` outcome. -/
def withdrawSol (userId : Nat) (toAddr : String) (amount : ℚ)
    (validTo : Bool) (poolLamports : ℤ) (submitOk : Bool) (sig : String) :
    WithdrawOutcome :=
  if !validTo then
    { submitted := [], records := [], debits := [], result := .error .invalidAddress }
  else
    let totalAmountBN : ℚ := amount + SOL_WITHDRAWAL_FEE
    let lamports : ℤ := ⌊totalAmountBN * (LAMPORTS_PER_SOL : ℚ)⌋
    let mainPoolBalanceSOL : ℚ := (poolLamports : ℚ) / (LAMPORTS_PER_SOL : ℚ)
    if poolLamports < lamports then
      { submitted := [], records := [], debits := [], result := .error .insufficientPool }
    else if mainPoolBalanceSOL - totalAmountBN < MIN_SOL_BALANCE then
      { submitted := [], records := [], debits := [], result := .error .belowMinReserve }
    else if !submitOk then
      { submitted := [(toAddr, lamports)], records := [], debits := [],
        result := .error .txFailed }
    else
      { submitted := [(toAddr, lamports)],
        records := [⟨userId, toAddr, -amount, "SOL", sig, "withdraw"⟩],
        debits := [(userId, amount, "SOL")],
        result := .ok sig }

/-- withdrawUsdc (unnamed/part_002 lines 214-329): like withdrawSol with a
1 USDC fee and 1 USDC minimum pool balance; the pool balance is read in
human units (base units / 10^6) and both checks run before any submission;
the recipient's associated token account is created first when absent; the
transfer then submits the TOTAL (amount + fee) in base units rounded down;
on success a `-amount` "withdraw" row is persisted and the ledger debited. -/
def withdrawUsdc (userId : Nat) (toAddr : String) (amount : ℚ)
    (validTo : Bool) (poolUsdcBase : ℤ) (recipientHasAccount : Bool)
    (submitOk : Bool) (sig : String) : WithdrawOutcome :=
  if !validTo then
    { submitted := [], records := [], debits := [], result := .error .invalidAddress }
  else
    let totalAmountBN : ℚ := amount + USDC_WITHDRAWAL_FEE
    let mainPoolUsdcBalanceBN : ℚ := (poolUsdcBase : ℚ) / 1000000
    if mainPoolUsdcBalanceBN < totalAmountBN then
      { submitted := [], records := [], debits := [], result := .error .insufficientPool }
    else if mainPoolUsdcBalanceBN - totalAmountBN < MIN_USDC_BALANCE then
      { submitted := [], records := [], debits := [], result := .error .belowMinReserve }
    else
      let transferAmount : ℤ := ⌊totalAmountBN * 1000000⌋
      if !submitOk then
        { submitted := [(toAddr, transferAmount)], records := [], debits := [],
          createdTokenAccount := !recipientHasAccount, result := .error .txFailed }
      else
        { submitted := [(toAddr, transferAmount)],
          records := [⟨userId, toAddr, -amount, "USDC", sig, "withdraw"⟩],
          debits := [(userId, amount, "USDC")],
          createdTokenAccount := !recipientHasAccount,
          result := .ok sig }

/-- withdrawTokenTron (src/blockchain/tron.ts lines 225-245): no address
validation and no pool-balance or reserve check of any kind — the USDT
transfer of `amount * 10^6` base units (BigNumber toFixed(0)) is submitted
unconditionally, then a `-amount` "withdraw" Transaction row is persisted
with txId '-'.  The pool balance is not even read. -/
def withdrawTokenTron (userId : Nat) (toAddr : String) (amount : ℚ)
    (contractOk : Bool) (txId : String) : WithdrawOutcome :=
  let rawAmount : ℤ := jsToFixed0 (amount * 1000000)
  if !contractOk then
    { submitted := [(toAddr, rawAmount)], records := [], debits := [],
      result := .error .txFailed }
  else
    { submitted := [(toAddr, rawAmount)],
      records := [⟨userId, toAddr, -amount, "USDT", "-", "withdraw"⟩],
      debits := [], result := .ok txId }

/-- withdrawTrx (src/blockchain/tron.ts lines 247-263): the submitted Sun
amount is `parseInt(amount.toString()) * 10^6` — integer truncation before
decimal scaling — while the persisted Transaction row debits the full
`-amount`. -/
def withdrawTrx (userId : Nat) (toAddr : String) (amount : ℚ)
    (submitOk : Bool) (txid : String) : WithdrawOutcome :=
  let rawAmount : ℤ := jsParseIntOfNumber amount * 1000000
  if !submitOk then
    { submitted := [(toAddr, rawAmount)], records := [], debits := [],
      result := .error .txFailed }
  else
    { submitted := [(toAddr, rawAmount)],
      records := [⟨userId, toAddr, -amount, "TRX", txid, "withdraw"⟩],
      debits := [], result := .ok txid }

/-! ## Chain adapter transaction listing and its RPC failure handling -/

structure TronTx where
  txID : String
  deriving Repr, DecidableEq

structure EthTx where
  hash : String
  deriving Repr, DecidableEq

/-- The Map-based txID dedup at the end of the Tron getRecentTransactions:
a later hit replaces the stored value but keeps the first position. -/
def dedupByTxID (l : List TronTx) : List TronTx :=
  l.foldl (fun acc tx =>
    if acc.any (fun t => t.txID == tx.txID) then
      acc.map (fun t => if t.txID == tx.txID then tx else t)
    else acc ++ [tx]) []

/-- getRecentTransactions from depositListeners/tron.ts lines 69-96: query
the Shasta and Mainnet endpoints, each inside its own silent catch that
contributes nothing on failure; dedup by txID; the outer catch likewise
returns the empty list.  Each endpoint's RPC outcome is a parameter; the
function never produces an error value. -/
def tron_getRecentTransactions (shastaRes mainnetRes : Except Unit (List TronTx)) :
    Except Unit (List TronTx) :=
  let fromShasta := match shastaRes with | .ok l => l | .error _ => []
  let fromMainnet := match mainnetRes with | .ok l => l | .error _ => []
  .ok (dedupByTxID (fromShasta ++ fromMainnet))

/-- getRecentTransactions from depositListeners/ethereum.ts lines 57-91:
getBlockNumber, then getLogs over the capped block range, then
getTransaction per log (individual failures skipped with a warning); a
failure of either of the first two RPC calls is caught and converted to the
empty list.  ethereum-deposits.ts getRecentTransactionsForAddress (lines
122-156) has the same catch-to-empty shape. -/
def ethereum_getRecentTransactions (blockNumberRes : Except Unit Int)
    (logsRes : Except Unit (List String)) (txOf : String → Except Unit (Option EthTx)) :
    Except Unit (List EthTx) :=
  match blockNumberRes with
  | .error _ => .ok []
  | .ok _ =>
      match logsRes with
      | .error _ => .ok []
      | .ok logs =>
          .ok (logs.filterMap (fun h =>
            match txOf h with
            | .ok (some tx) => some tx
            | _ => none))

/-- getRecentTransactionsForAddress from solana-deposits.ts lines 167-194:
getSignaturesForAddress, then getTransaction per signature (an individual
failure becomes null and is filtered out); a failure of the signature
listing is caught and converted to the empty list. -/
def solana_getRecentTransactionsForAddress (signaturesRes : Except Unit (List String))
    (txOf : String → Except Unit (Option String)) :
    Except Unit (List (String × Option String)) :=
  match signaturesRes with
  | .error _ => .ok []
  | .ok sigs =>
      .ok (sigs.filterMap (fun sg =>
        match txOf sg with
        | .error _ => none
        | .ok t => some (sg, t)))

/-! ## Poller re-entrancy -/

/-- What one timer tick of a poller does: start a scan of the listed
addresses, or return immediately leaving the running cycle alone. -/
inductive CycleAction where
  | scanned (addresses : List (Nat × String))
  | skippedCycle
  deriving Repr, DecidableEq

/-- Entry of pollForDeposits (solana-deposits.ts lines 197-245;
ethereum-deposits.ts lines 202-238 carries the identical guard): the module
flag `isPolling` is consulted first — a tick arriving while a cycle is in
flight returns immediately without scanning; otherwise the flag is set for
the duration of the cycle (cleared in `finally`) and the scan proceeds. -/
def pollForDeposits (isPolling : Bool) (addresses : List (Nat × String)) :
    CycleAction × Bool :=
  if isPolling then (.skippedCycle, isPolling)
  else (.scanned addresses, true)

/-- Entry of monitorSolanaDeposits (depositListeners/solana.ts lines
228-246; monitorTronDeposits and monitorEthereumDeposits are identical in
this respect): the module holds no re-entrancy state at all — whether or
not a previous cycle is still in flight, the invocation proceeds to fetch
the monitored addresses and scan them. -/
def monitorSolanaDeposits (previousCycleInFlight : Bool)
    (addresses : List (Nat × String)) : CycleAction :=
  .scanned addresses

/-! ## Lemmas and claim theorems -/

theorem toUSDT_eq_none_of_not_supported (r : Rates) (sym : String)
    (h : sym ∉ supportedSymbols) : toUSDT r sym = none := by
  simp only [supportedSymbols, List.mem_cons, List.mem_singleton, not_or] at h
  obtain ⟨h1, h2, h3, h4, h5, h6⟩ := h
  simp [toUSDT, h1, h2, h3, h4, h5, h6]

theorem toUSDT_isSome_of_supported (r : Rates) (sym : String)
    (h : sym ∈ supportedSymbols) : (toUSDT r sym).isSome := by
  simp only [supportedSymbols, List.mem_cons, List.not_mem_nil, or_false] at h
  rcases h with h | h | h | h | h | h <;> subst h <;> rfl

theorem toUpper_of_supported (sym : String) (h : sym ∈ supportedSymbols) :
    sym.toUpper = sym := by
  simp only [supportedSymbols, List.mem_cons, List.not_mem_nil, or_false] at h
  rcases h with h | h | h | h | h | h <;> subst h <;>
    (rw [String.toUpper, String.map_eq]; decide)

theorem toUSDT_of_stable (r : Rates) (sym : String) (h : sym ∈ stableSymbols) :
    toUSDT r sym = some 1 := by
  simp only [stableSymbols, List.mem_cons, List.not_mem_nil, or_false] at h
  rcases h with h | h | h <;> subst h <;> rfl

theorem stable_supported (sym : String) (h : sym ∈ stableSymbols) :
    sym ∈ supportedSymbols := by
  simp only [stableSymbols, List.mem_cons, List.not_mem_nil, or_false] at h
  rcases h with h | h | h <;> subst h <;> decide

/-- C8: the oracle conversion is case-insensitive in its symbol arguments —
for supported symbols `s`, `t`, `convert a s t = convert a (upper s) (upper t)` —
and USD, USDT, USDC are pinned 1:1, so for `s`, `t` drawn from that set in any
letter case, `convert a s t = a`.  Holds for every fetched rate table. -/
theorem convert_case_insensitive_and_stable_identity
    (r : Rates) (a : ℚ) (s t : String)
    (hs : s.toUpper ∈ supportedSymbols) (ht : t.toUpper ∈ supportedSymbols) :
    convert r a s t = convert r a s.toUpper t.toUpper
    ∧ (s.toUpper ∈ stableSymbols → t.toUpper ∈ stableSymbols →
        convert r a s t = some a) := by
  constructor
  · simp only [convert, toUpper_of_supported _ hs, toUpper_of_supported _ ht]
  · intro hs' ht'
    simp only [convert, toUSDT_of_stable r _ hs', toUSDT_of_stable r _ ht', jsMul, jsDiv,
      mul_one, div_one]

/-- Witness for `convert_case_insensitive_and_stable_identity` at the lower-case
pair ("usd", "USDC") and amount 5. -/
theorem convert_case_insensitive_and_stable_identity_witness :
    convert ⟨2, 3, 4⟩ 5 "usd" "USDC" = convert ⟨2, 3, 4⟩ 5 "usd".toUpper "USDC".toUpper
    ∧ ("usd".toUpper ∈ stableSymbols → "USDC".toUpper ∈ stableSymbols →
        convert ⟨2, 3, 4⟩ 5 "usd" "USDC" = some 5) :=
  convert_case_insensitive_and_stable_identity ⟨2, 3, 4⟩ 5 "usd" "USDC"
    (by rw [String.toUpper, String.map_eq]; decide)
    (by rw [String.toUpper, String.map_eq]; decide)

/-- C10: when either symbol, after uppercasing, lies outside the supported set,
`convert` returns NaN (modelled `none`) rather than raising: the unguarded table
access yields `undefined`, which propagates through the arithmetic. -/
theorem convert_unsupported_symbol_returns_nan
    (r : Rates) (a : ℚ) (s t : String)
    (h : s.toUpper ∉ supportedSymbols ∨ t.toUpper ∉ supportedSymbols) :
    convert r a s t = none := by
  rcases h with h | h
  · rw [convert, toUSDT_eq_none_of_not_supported r _ h]
    cases toUSDT r t.toUpper <;> rfl
  · rw [convert, toUSDT_eq_none_of_not_supported r _ h]
    cases toUSDT r s.toUpper <;> rfl

/-- Witness for `convert_unsupported_symbol_returns_nan` at symbol "DOGE". -/
theorem convert_unsupported_symbol_returns_nan_witness :
    convert ⟨2, 3, 4⟩ 7 "DOGE" "usd" = none :=
  convert_unsupported_symbol_returns_nan ⟨2, 3, 4⟩ 7 "DOGE" "usd"
    (Or.inl (by rw [String.toUpper, String.map_eq]; decide))

/-! Store lemmas. -/

theorem DB.countTx_createDeposit_ok {db db' : DB} {row : DepositRow}
    (h : db.createDeposit row = .ok db') (t : String) :
    db'.countTx t = db.countTx t + (if row.txHash == t then 1 else 0) := by
  rw [DB.createDeposit] at h
  split at h
  · exact absurd h (by simp)
  · cases h
    simp only [DB.countTx, List.countP_cons]

theorem DB.createDeposit_ok_fresh {db db' : DB} {row : DepositRow}
    (h : db.createDeposit row = .ok db') : db.countTx row.txHash = 0 := by
  rw [DB.createDeposit] at h
  split at h
  · exact absurd h (by simp)
  · rename_i hany
    rw [List.any_eq_true] at hany
    push_neg at hany
    rw [DB.countTx, List.countP_eq_zero]
    intro r hr
    exact hany r hr

theorem DB.createDeposit_error_exists {db : DB} {row : DepositRow}
    (h : db.createDeposit row = .error .duplicateTxHash) :
    1 ≤ db.countTx row.txHash := by
  rw [DB.createDeposit] at h
  split at h
  · rename_i hany
    rw [List.any_eq_true] at hany
    obtain ⟨r, hr, hpr⟩ := hany
    rw [DB.countTx]
    exact List.countP_pos.mpr ⟨r, hr, hpr⟩
  · exact absurd h (by simp)

theorem DB.balances_createDeposit_ok {db db' : DB} {row : DepositRow}
    (h : db.createDeposit row = .ok db') : db'.balances = db.balances := by
  rw [DB.createDeposit] at h
  split at h
  · exact absurd h (by simp)
  · cases h; rfl

theorem DB.balanceOf_createDeposit_ok {db db' : DB} {row : DepositRow}
    (h : db.createDeposit row = .ok db') (u : Nat) (c : String) :
    db'.balanceOf u c = db.balanceOf u c := by
  rw [DB.balanceOf, DB.balanceOf, DB.balances_createDeposit_ok h]

theorem DB.countTx_creditBalance (db : DB) (u : Nat) (c : String) (a : ℚ) (t : String) :
    (db.creditBalance u c a).countTx t = db.countTx t := by
  rw [DB.creditBalance]
  split <;> rfl

theorem DB.findDeposit_creditBalance (db : DB) (u : Nat) (c : String) (a : ℚ) (t : String) :
    (db.creditBalance u c a).findDeposit t = db.findDeposit t := by
  rw [DB.creditBalance]
  split <;> rfl

theorem DB.balanceOf_creditBalance (db : DB) (u : Nat) (c : String) (a : ℚ) :
    (db.creditBalance u c a).balanceOf u c = db.balanceOf u c + a := by
  rw [DB.creditBalance]
  rcases hfind : db.balances.find? (fun b => b.userId == u && b.currency == c) with _ | b
  · rw [DB.balanceOf, DB.balanceOf, hfind]
    simp [List.find?]
  · rw [DB.balanceOf, DB.balanceOf, hfind]
    have hcomp : ((fun b : BalanceRow => b.userId == u && b.currency == c) ∘ (fun b =>
        if b.userId == u && b.currency == c then { b with amount := b.amount + a } else b))
        = (fun b : BalanceRow => b.userId == u && b.currency == c) := by
      funext x
      by_cases hx : (x.userId == u && x.currency == c) = true
      · simp [Function.comp, hx]
      · simp [Function.comp, hx]
    have hmap : (db.balances.map (fun b =>
        if b.userId == u && b.currency == c then { b with amount := b.amount + a } else b)).find?
          (fun b => b.userId == u && b.currency == c)
        = (db.balances.find? (fun b => b.userId == u && b.currency == c)).map (fun b =>
            if b.userId == u && b.currency == c then { b with amount := b.amount + a } else b) := by
      rw [List.find?_map, hcomp]
    rw [hmap, hfind]
    have hb := List.find?_some hfind
    simp only [Bool.and_eq_true, beq_iff_eq] at hb
    simp [hb.1, hb.2]

theorem DB.findDeposit_isSome_of_countTx {db : DB} {t : String}
    (h : 1 ≤ db.countTx t) : ∃ r, db.findDeposit t = some r := by
  rw [DB.countTx] at h
  have := List.countP_pos.mp (Nat.lt_of_lt_of_le Nat.zero_lt_one h)
  obtain ⟨r, hr, hpr⟩ := this
  rw [DB.findDeposit]
  rcases hfind : db.deposits.find? (fun r => r.txHash == t) with _ | r'
  · rw [List.find?_eq_none] at hfind
    exact absurd hpr (by simpa using hfind r hr)
  · exact ⟨r', hfind⟩

theorem DB.findDeposit_eq_none_of_fresh {db : DB} {t : String}
    (h : db.countTx t = 0) : db.findDeposit t = none := by
  rw [DB.countTx, List.countP_eq_zero] at h
  rw [DB.findDeposit, List.find?_eq_none]
  intro r hr
  simpa using h r hr

theorem DB.countTx_pos_of_findDeposit {db : DB} {t : String} {r : DepositRow}
    (h : db.findDeposit t = some r) : 1 ≤ db.countTx t := by
  rw [DB.findDeposit] at h
  have hmem := List.mem_of_find?_eq_some h
  have hpr := List.find?_some h
  rw [DB.countTx]
  exact List.countP_pos_iff.mpr ⟨r, hmem, hpr⟩

theorem DB.createDeposit_of_fresh {db : DB} {row : DepositRow}
    (h : db.countTx row.txHash = 0) :
    db.createDeposit row = .ok { db with deposits := row :: db.deposits } := by
  rw [DB.countTx, List.countP_eq_zero] at h
  rw [DB.createDeposit, if_neg]
  intro hany
  rw [List.any_eq_true] at hany
  obtain ⟨r, hr, hpr⟩ := hany
  exact absurd hpr (by simpa using h r hr)

theorem Candidate.row_txHash (c : Candidate) : c.row.txHash = c.txHash := rfl

theorem monitorHandle_already (c : Candidate) (creditOk : Bool) (db : DB)
    (seen : List String) (h : 1 ≤ db.countTx c.txHash) :
    (monitorHandle c creditOk db seen).1 = db := by
  rw [monitorHandle, isTransactionProcessed]
  by_cases hc : seen.contains c.txHash = true
  · rw [if_pos hc]
  · rw [if_neg hc]
    obtain ⟨r, hr⟩ := DB.findDeposit_isSome_of_countTx h
    rw [hr]

theorem InvP_swap {c : Candidate} {b0 : ℚ} {pcA pcB : PC} {sh : Shared}
    (h : InvP c b0 pcA pcB sh) : InvP c b0 pcB pcA sh := by
  obtain ⟨h1, h2, h3, h4, h5, h6, h7, h8⟩ := h
  exact ⟨by omega, by omega, by rw [h3]; ring_nf, h4, h6, h5, h8, h7⟩

theorem InvP_stepProc (c : Candidate) (b0 : ℚ) (pcA pcB : PC) (sh : Shared)
    (h : InvP c b0 pcA pcB sh) :
    InvP c b0 (stepProc c pcA sh).1 pcB (stepProc c pcA sh).2 := by
  obtain ⟨h1, h2, h3, h4, h5, h6, h7, h8⟩ := h
  cases pcA with
  | checkSeen =>
      simp only [stepProc]
      by_cases hc : sh.seen.contains c.txHash = true
      · rw [if_pos hc]
        exact ⟨h1, h2, h3, h4, fun _ => h4 hc, h6, (by intro hx; simp at hx), h8⟩
      · rw [if_neg hc]
        exact ⟨h1, h2, h3, h4, (by intro hx; simp at hx), h6, (by intro hx; simp at hx), h8⟩
  | checkDb =>
      simp only [stepProc]
      rcases hf : sh.db.findDeposit c.txHash with _ | r
      · simp only [hf]
        exact ⟨h1, h2, h3, h4, (by intro hx; simp at hx), h6, (by intro hx; simp at hx), h8⟩
      · simp only [hf]
        have hpos := DB.countTx_pos_of_findDeposit hf
        have e1 : sh.db.countTx c.txHash = 0 + pcB.createdFlag := h1
        have e2 : 0 + pcB.createdFlag ≤ 1 := h2
        have hct : sh.db.countTx c.txHash = 1 := by omega
        exact ⟨h1, h2, h3, fun _ => hct, fun _ => hct, h6, (by intro hx; simp at hx), h8⟩
  | create =>
      simp only [stepProc]
      rcases hcd : sh.db.createDeposit c.row with e | db1
      · simp only [hcd]
        cases e
        have hpos := DB.createDeposit_error_exists hcd
        rw [Candidate.row_txHash] at hpos
        have e1 : sh.db.countTx c.txHash = 0 + pcB.createdFlag := h1
        have e2 : 0 + pcB.createdFlag ≤ 1 := h2
        have hct : sh.db.countTx c.txHash = 1 := by omega
        exact ⟨h1, h2, h3, h4, (by intro hx; simp at hx), h6, fun _ => hct, h8⟩
      · simp only [hcd]
        have hfresh := DB.createDeposit_ok_fresh hcd
        rw [Candidate.row_txHash] at hfresh
        have hcnt := DB.countTx_createDeposit_ok hcd c.txHash
        rw [Candidate.row_txHash] at hcnt
        simp only [beq_self_eq_true, if_true] at hcnt
        have e1 : sh.db.countTx c.txHash = 0 + pcB.createdFlag := h1
        refine ⟨?_, ?_, ?_, ?_, (by intro hx; simp at hx), ?_, (by intro hx; simp at hx), ?_⟩
        · show db1.countTx c.txHash = 1 + pcB.createdFlag
          omega
        · show 1 + pcB.createdFlag ≤ 1
          omega
        · show db1.balanceOf c.userId c.currency
            = b0 + (0 + pcB.creditedFlag : ℕ) * c.amount
          rw [DB.balanceOf_createDeposit_ok hcd]
          exact h3
        · intro hcon
          have := h4 hcon
          omega
        · intro hx
          have := h6 hx
          omega
        · intro hx
          have := h8 hx
          omega
  | credit =>
      simp only [stepProc]
      have e3 : sh.db.balanceOf c.userId c.currency
          = b0 + (0 + pcB.creditedFlag : ℕ) * c.amount := h3
      refine ⟨?_, h2, ?_, ?_, (by intro hx; simp at hx), ?_, (by intro hx; simp at hx), ?_⟩
      · show (sh.db.creditBalance c.userId c.currency c.amount).countTx c.txHash
          = 1 + pcB.createdFlag
        rw [DB.countTx_creditBalance]
        exact h1
      · show (sh.db.creditBalance c.userId c.currency c.amount).balanceOf c.userId c.currency
          = b0 + (1 + pcB.creditedFlag : ℕ) * c.amount
        rw [DB.balanceOf_creditBalance, e3]
        push_cast
        ring
      · intro hcon
        rw [DB.countTx_creditBalance]
        exact h4 hcon
      · intro hx
        rw [DB.countTx_creditBalance]
        exact h6 hx
      · intro hx
        rw [DB.countTx_creditBalance]
        exact h8 hx
  | markSeen =>
      simp only [stepProc]
      have e1 : sh.db.countTx c.txHash = 1 + pcB.createdFlag := h1
      have e2 : 1 + pcB.createdFlag ≤ 1 := h2
      have hct : sh.db.countTx c.txHash = 1 := by omega
      exact ⟨h1, h2, h3, fun _ => hct, (by intro hx; simp at hx), h6, (by intro hx; simp at hx), h8⟩
  | done => exact ⟨h1, h2, h3, h4, h5, h6, h7, h8⟩
  | skipped => exact ⟨h1, h2, h3, h4, h5, h6, h7, h8⟩
  | failed => exact ⟨h1, h2, h3, h4, h5, h6, h7, h8⟩

theorem InvP_step (c : Candidate) (b0 : ℚ) (cfg : Config) (b : Bool)
    (h : InvP c b0 cfg.pc1 cfg.pc2 cfg.sh) :
    InvP c b0 (step c cfg b).pc1 (step c cfg b).pc2 (step c cfg b).sh := by
  cases b with
  | true =>
      simp only [step, if_true]
      exact InvP_stepProc c b0 cfg.pc1 cfg.pc2 cfg.sh h
  | false =>
      simp only [step, if_false]
      exact InvP_swap (InvP_stepProc c b0 cfg.pc2 cfg.pc1 cfg.sh (InvP_swap h))

theorem InvP_run (c : Candidate) (b0 : ℚ) (sched : List Bool) (cfg : Config)
    (h : InvP c b0 cfg.pc1 cfg.pc2 cfg.sh) :
    InvP c b0 (run c sched cfg).pc1 (run c sched cfg).pc2 (run c sched cfg).sh := by
  induction sched generalizing cfg with
  | nil => exact h
  | cons b rest ih =>
      rw [run, List.foldl_cons]
      exact ih (step c cfg b) (InvP_step c b0 cfg b h)

theorem InvP_init (c : Candidate) (db0 : DB) (seen0 : List String)
    (hfresh : db0.countTx c.txHash = 0) (hseen : seen0.contains c.txHash = false) :
    InvP c (db0.balanceOf c.userId c.currency) .checkSeen .checkSeen ⟨db0, seen0⟩ := by
  refine ⟨?_, ?_, ?_, ?_, (by intro hx; simp at hx), (by intro hx; simp at hx),
    (by intro hx; simp at hx), (by intro hx; simp at hx)⟩
  · exact hfresh
  · show (0 : ℕ) + 0 ≤ 1
    omega
  · show db0.balanceOf c.userId c.currency
      = db0.balanceOf c.userId c.currency + ((0 : ℕ) + (0 : ℕ) : ℕ) * c.amount
    push_cast
    ring
  · intro hcon
    rw [hseen] at hcon
    exact absurd hcon (by simp)

theorem InvP_final {c : Candidate} {b0 : ℚ} {p1 p2 : PC} {sh : Shared}
    (h : InvP c b0 p1 p2 sh) (ht1 : p1.terminal = true) (ht2 : p2.terminal = true) :
    sh.db.countTx c.txHash = 1
    ∧ sh.db.balanceOf c.userId c.currency = b0 + c.amount := by
  obtain ⟨h1, h2, h3, h4, h5, h6, h7, h8⟩ := h
  cases p1 <;> cases p2 <;>
    simp_all [PC.terminal, PC.createdFlag, PC.creditedFlag]

/-- C1: a candidate transfer with a given txId presented to the deposit
pipeline twice — the two invocations interleaved under any schedule that
lets both finish within one process run, or presented again in a later run
whose in-memory seen-set starts fresh — leaves exactly one deposit record
with that txHash, and the user's balance for that currency reflects the
amount exactly once; the later-run re-presentation changes nothing in the
store.  The store's uniqueness of `txHash` (modelled from the spec in
`DB.createDeposit`) is the arbiter for the interleaved case. -/
theorem deposit_pipeline_idempotent (c : Candidate) (db0 : DB) (seen0 : List String)
    (sched : List Bool) (creditOk : Bool)
    (hfresh : db0.countTx c.txHash = 0)
    (hseen : seen0.contains c.txHash = false)
    (ht1 : (run c sched ⟨.checkSeen, .checkSeen, db0, seen0⟩).pc1.terminal = true)
    (ht2 : (run c sched ⟨.checkSeen, .checkSeen, db0, seen0⟩).pc2.terminal = true) :
    (run c sched ⟨.checkSeen, .checkSeen, db0, seen0⟩).sh.db.countTx c.txHash = 1
    ∧ (run c sched ⟨.checkSeen, .checkSeen, db0, seen0⟩).sh.db.balanceOf c.userId c.currency
        = db0.balanceOf c.userId c.currency + c.amount
    ∧ (monitorHandle c creditOk
          (run c sched ⟨.checkSeen, .checkSeen, db0, seen0⟩).sh.db []).1
        = (run c sched ⟨.checkSeen, .checkSeen, db0, seen0⟩).sh.db := by
  have hinv := InvP_run c (db0.balanceOf c.userId c.currency) sched
      ⟨.checkSeen, .checkSeen, db0, seen0⟩ (InvP_init c db0 seen0 hfresh hseen)
  have hfinal := InvP_final hinv ht1 ht2
  refine ⟨hfinal.1, hfinal.2, monitorHandle_already c creditOk _ [] ?_⟩
  rw [hfinal.1]

/-- Witness for `deposit_pipeline_idempotent`: a 5/2 SOL transfer for user 7,
with the two invocations interleaved (both pass the dedup checks before
either inserts; the second aborts on the duplicate insert). -/
theorem deposit_pipeline_idempotent_witness :
    (run
        { userId := 7, txHash := "sig1", fromAddress := "S", toAddress := "A",
          amount := 5/2, blockNumber := 42, currency := "SOL", network := "Solana",
          orderId := "SOL_1", oracle := some (150, some 375) }
        [true, false, true, false, true, true, true, false]
        ⟨.checkSeen, .checkSeen, ⟨[], []⟩, []⟩).sh.db.countTx "sig1" = 1
    ∧ (run
        { userId := 7, txHash := "sig1", fromAddress := "S", toAddress := "A",
          amount := 5/2, blockNumber := 42, currency := "SOL", network := "Solana",
          orderId := "SOL_1", oracle := some (150, some 375) }
        [true, false, true, false, true, true, true, false]
        ⟨.checkSeen, .checkSeen, ⟨[], []⟩, []⟩).sh.db.balanceOf 7 "SOL"
        = (⟨[], []⟩ : DB).balanceOf 7 "SOL" + 5/2
    ∧ (monitorHandle
        { userId := 7, txHash := "sig1", fromAddress := "S", toAddress := "A",
          amount := 5/2, blockNumber := 42, currency := "SOL", network := "Solana",
          orderId := "SOL_1", oracle := some (150, some 375) }
        true
        (run
          { userId := 7, txHash := "sig1", fromAddress := "S", toAddress := "A",
            amount := 5/2, blockNumber := 42, currency := "SOL", network := "Solana",
            orderId := "SOL_1", oracle := some (150, some 375) }
          [true, false, true, false, true, true, true, false]
          ⟨.checkSeen, .checkSeen, ⟨[], []⟩, []⟩).sh.db []).1
        = (run
          { userId := 7, txHash := "sig1", fromAddress := "S", toAddress := "A",
            amount := 5/2, blockNumber := 42, currency := "SOL", network := "Solana",
            orderId := "SOL_1", oracle := some (150, some 375) }
          [true, false, true, false, true, true, true, false]
          ⟨.checkSeen, .checkSeen, ⟨[], []⟩, []⟩).sh.db :=
  deposit_pipeline_idempotent
    { userId := 7, txHash := "sig1", fromAddress := "S", toAddress := "A",
      amount := 5/2, blockNumber := 42, currency := "SOL", network := "Solana",
      orderId := "SOL_1", oracle := some (150, some 375) }
    ⟨[], []⟩ [] [true, false, true, false, true, true, true, false] true
    (by decide) (by decide) (by decide) (by decide)

theorem PC.creditedFlag_le_createdFlag (pc : PC) :
    pc.creditedFlag ≤ pc.createdFlag := by
  cases pc <;> decide

theorem run_single_insert_then_credit (c : Candidate) (db0 : DB) (seen0 : List String)
    (hfresh : db0.countTx c.txHash = 0)
    (hseen : seen0.contains c.txHash = false) :
    run c [true, true, true] ⟨.checkSeen, .checkSeen, db0, seen0⟩
      = ⟨.credit, .checkSeen, ⟨{ db0 with deposits := c.row :: db0.deposits }, seen0⟩⟩
    ∧ run c [true, true, true, true, true] ⟨.checkSeen, .checkSeen, db0, seen0⟩
      = ⟨.done, .checkSeen,
          ⟨({ db0 with deposits := c.row :: db0.deposits } : DB).creditBalance
              c.userId c.currency c.amount, c.txHash :: seen0⟩⟩ := by
  have hc := DB.createDeposit_of_fresh
    (show db0.countTx c.row.txHash = 0 by rw [Candidate.row_txHash]; exact hfresh)
  have sp1 : stepProc c .checkSeen ⟨db0, seen0⟩ = (.checkDb, ⟨db0, seen0⟩) := by
    simp only [stepProc]
    rw [if_neg]
    rw [hseen]
    simp
  have sp2 : stepProc c .checkDb ⟨db0, seen0⟩ = (.create, ⟨db0, seen0⟩) := by
    simp only [stepProc, DB.findDeposit_eq_none_of_fresh hfresh]
  have sp3 : stepProc c .create ⟨db0, seen0⟩
      = (.credit, ⟨{ db0 with deposits := c.row :: db0.deposits }, seen0⟩) := by
    simp only [stepProc, hc]
  have e1 : step c ⟨.checkSeen, .checkSeen, db0, seen0⟩ true
      = ⟨.checkDb, .checkSeen, db0, seen0⟩ := by
    simp only [step, if_pos]
    rw [sp1]
  have e2 : step c ⟨.checkDb, .checkSeen, db0, seen0⟩ true
      = ⟨.create, .checkSeen, db0, seen0⟩ := by
    simp only [step, if_pos]
    rw [sp2]
  have e3 : step c ⟨.create, .checkSeen, db0, seen0⟩ true
      = ⟨.credit, .checkSeen, ⟨{ db0 with deposits := c.row :: db0.deposits }, seen0⟩⟩ := by
    simp only [step, if_pos]
    rw [sp3]
  have e4 : step c ⟨.credit, .checkSeen,
        ⟨{ db0 with deposits := c.row :: db0.deposits }, seen0⟩⟩ true
      = ⟨.markSeen, .checkSeen,
          ⟨({ db0 with deposits := c.row :: db0.deposits } : DB).creditBalance
              c.userId c.currency c.amount, seen0⟩⟩ := rfl
  have e5 : step c ⟨.markSeen, .checkSeen,
        ⟨({ db0 with deposits := c.row :: db0.deposits } : DB).creditBalance
            c.userId c.currency c.amount, seen0⟩⟩ true
      = ⟨.done, .checkSeen,
          ⟨({ db0 with deposits := c.row :: db0.deposits } : DB).creditBalance
              c.userId c.currency c.amount, c.txHash :: seen0⟩⟩ := rfl
  constructor
  · rw [run, List.foldl_cons, e1, List.foldl_cons, e2, List.foldl_cons, e3, List.foldl_nil]
  · rw [run, List.foldl_cons, e1, List.foldl_cons, e2, List.foldl_cons, e3,
      List.foldl_cons, e4, List.foldl_cons, e5, List.foldl_nil]

/-- C2 (amended): creating the deposit record and crediting the balance are
two separate store transactions committed in sequence — the
`prisma.$transaction` wraps only the balance upsert, while the insert has
already committed on its own.  Completing the pipeline applies both; but
after the insert step has committed and before the balance step runs (the
program counter sits at the balance write — exactly where the claim's
"error between the two writes" strikes, and where a thrown error or crash
leaves the store), the store already holds the deposit record with no
matching balance credit.  The converse state stays unreachable: under every
schedule of two interleaved invocations, a changed balance implies the
record exists. -/
theorem deposit_create_credit_two_transactions (c : Candidate) (db0 : DB)
    (seen0 : List String) (sched : List Bool)
    (hfresh : db0.countTx c.txHash = 0)
    (hseen : seen0.contains c.txHash = false) :
    ((run c [true, true, true] ⟨.checkSeen, .checkSeen, db0, seen0⟩).pc1 = .credit
      ∧ (run c [true, true, true] ⟨.checkSeen, .checkSeen, db0, seen0⟩).sh.db.countTx
          c.txHash = 1
      ∧ (run c [true, true, true] ⟨.checkSeen, .checkSeen, db0, seen0⟩).sh.db.balanceOf
          c.userId c.currency = db0.balanceOf c.userId c.currency)
    ∧ ((run c [true, true, true, true, true]
          ⟨.checkSeen, .checkSeen, db0, seen0⟩).pc1 = .done
      ∧ (run c [true, true, true, true, true]
          ⟨.checkSeen, .checkSeen, db0, seen0⟩).sh.db.countTx c.txHash = 1
      ∧ (run c [true, true, true, true, true]
          ⟨.checkSeen, .checkSeen, db0, seen0⟩).sh.db.balanceOf c.userId c.currency
          = db0.balanceOf c.userId c.currency + c.amount)
    ∧ ((run c sched ⟨.checkSeen, .checkSeen, db0, seen0⟩).sh.db.balanceOf
          c.userId c.currency ≠ db0.balanceOf c.userId c.currency →
        1 ≤ (run c sched ⟨.checkSeen, .checkSeen, db0, seen0⟩).sh.db.countTx c.txHash) := by
  obtain ⟨er3, er5⟩ := run_single_insert_then_credit c db0 seen0 hfresh hseen
  have hc := DB.createDeposit_of_fresh
    (show db0.countTx c.row.txHash = 0 by rw [Candidate.row_txHash]; exact hfresh)
  have hcnt := DB.countTx_createDeposit_ok hc c.txHash
  rw [Candidate.row_txHash] at hcnt
  simp only [beq_self_eq_true, if_true] at hcnt
  have hbal := DB.balanceOf_createDeposit_ok hc c.userId c.currency
  refine ⟨⟨?_, ?_, ?_⟩, ⟨?_, ?_, ?_⟩, ?_⟩
  · rw [er3]
  · rw [er3]
    show ({ db0 with deposits := c.row :: db0.deposits } : DB).countTx c.txHash = 1
    omega
  · rw [er3]
    exact hbal
  · rw [er5]
  · rw [er5]
    show (({ db0 with deposits := c.row :: db0.deposits } : DB).creditBalance
        c.userId c.currency c.amount).countTx c.txHash = 1
    rw [DB.countTx_creditBalance]
    omega
  · rw [er5]
    show (({ db0 with deposits := c.row :: db0.deposits } : DB).creditBalance
        c.userId c.currency c.amount).balanceOf c.userId c.currency
      = db0.balanceOf c.userId c.currency + c.amount
    rw [DB.balanceOf_creditBalance, hbal]
  · intro hne
    obtain ⟨i1, i2, i3, _⟩ := InvP_run c (db0.balanceOf c.userId c.currency) sched
      ⟨.checkSeen, .checkSeen, db0, seen0⟩ (InvP_init c db0 seen0 hfresh hseen)
    have hz : (run c sched ⟨.checkSeen, .checkSeen, db0, seen0⟩).pc1.creditedFlag
        + (run c sched ⟨.checkSeen, .checkSeen, db0, seen0⟩).pc2.creditedFlag ≠ 0 := by
      intro h0
      rw [h0] at i3
      simp at i3
      exact hne i3
    have hle1 := PC.creditedFlag_le_createdFlag
      (run c sched ⟨.checkSeen, .checkSeen, db0, seen0⟩).pc1
    have hle2 := PC.creditedFlag_le_createdFlag
      (run c sched ⟨.checkSeen, .checkSeen, db0, seen0⟩).pc2
    omega

/-- Counterexample to C2 as stated: the two writes commit separately, so the
in-between store state is reachable.  A single pipeline invocation for a
5 ETH transfer of user 7, run up to and including the deposit-insert step,
sits at the balance write (program counter `.credit` — the point where the
claim's "error between the two writes" strikes and where a thrown error or
crash leaves the store) with the "sig2" deposit record already persisted
and user 7's ETH balance still 0: a reachable state with a deposit record
and no matching balance credit. -/
theorem deposit_record_without_credit_reachable :
    (run
        { userId := 7, txHash := "sig2", fromAddress := "S", toAddress := "A",
          amount := 5, blockNumber := 1, currency := "ETH", network := "Ethereum",
          orderId := "ETH_1", oracle := some (100, some 500) }
        [true, true, true] ⟨.checkSeen, .checkSeen, ⟨[], []⟩, []⟩).pc1 = .credit
    ∧ (run
        { userId := 7, txHash := "sig2", fromAddress := "S", toAddress := "A",
          amount := 5, blockNumber := 1, currency := "ETH", network := "Ethereum",
          orderId := "ETH_1", oracle := some (100, some 500) }
        [true, true, true] ⟨.checkSeen, .checkSeen, ⟨[], []⟩, []⟩).sh.db.countTx "sig2" = 1
    ∧ (run
        { userId := 7, txHash := "sig2", fromAddress := "S", toAddress := "A",
          amount := 5, blockNumber := 1, currency := "ETH", network := "Ethereum",
          orderId := "ETH_1", oracle := some (100, some 500) }
        [true, true, true] ⟨.checkSeen, .checkSeen, ⟨[], []⟩, []⟩).sh.db.balanceOf
          7 "ETH" = 0 := by
  decide

/-- Witness for `deposit_create_credit_two_transactions` at a 3 TRX transfer
for user 2 against an empty store, with the no-credit-without-record part
taken at the completed five-step schedule. -/
theorem deposit_create_credit_two_transactions_witness :
    ((run
        { userId := 2, txHash := "sig3", fromAddress := "S", toAddress := "A",
          amount := 3, blockNumber := 9, currency := "TRX", network := "Tron",
          orderId := "TRX_1", oracle := none }
        [true, true, true] ⟨.checkSeen, .checkSeen, ⟨[], []⟩, []⟩).pc1 = .credit
      ∧ (run
        { userId := 2, txHash := "sig3", fromAddress := "S", toAddress := "A",
          amount := 3, blockNumber := 9, currency := "TRX", network := "Tron",
          orderId := "TRX_1", oracle := none }
        [true, true, true] ⟨.checkSeen, .checkSeen, ⟨[], []⟩, []⟩).sh.db.countTx
          "sig3" = 1
      ∧ (run
        { userId := 2, txHash := "sig3", fromAddress := "S", toAddress := "A",
          amount := 3, blockNumber := 9, currency := "TRX", network := "Tron",
          orderId := "TRX_1", oracle := none }
        [true, true, true] ⟨.checkSeen, .checkSeen, ⟨[], []⟩, []⟩).sh.db.balanceOf
          2 "TRX" = (⟨[], []⟩ : DB).balanceOf 2 "TRX")
    ∧ ((run
        { userId := 2, txHash := "sig3", fromAddress := "S", toAddress := "A",
          amount := 3, blockNumber := 9, currency := "TRX", network := "Tron",
          orderId := "TRX_1", oracle := none }
        [true, true, true, true, true] ⟨.checkSeen, .checkSeen, ⟨[], []⟩, []⟩).pc1 = .done
      ∧ (run
        { userId := 2, txHash := "sig3", fromAddress := "S", toAddress := "A",
          amount := 3, blockNumber := 9, currency := "TRX", network := "Tron",
          orderId := "TRX_1", oracle := none }
        [true, true, true, true, true]
          ⟨.checkSeen, .checkSeen, ⟨[], []⟩, []⟩).sh.db.countTx "sig3" = 1
      ∧ (run
        { userId := 2, txHash := "sig3", fromAddress := "S", toAddress := "A",
          amount := 3, blockNumber := 9, currency := "TRX", network := "Tron",
          orderId := "TRX_1", oracle := none }
        [true, true, true, true, true]
          ⟨.checkSeen, .checkSeen, ⟨[], []⟩, []⟩).sh.db.balanceOf 2 "TRX"
          = (⟨[], []⟩ : DB).balanceOf 2 "TRX" + 3)
    ∧ ((run
        { userId := 2, txHash := "sig3", fromAddress := "S", toAddress := "A",
          amount := 3, blockNumber := 9, currency := "TRX", network := "Tron",
          orderId := "TRX_1", oracle := none }
        [true, true, true, true, true]
          ⟨.checkSeen, .checkSeen, ⟨[], []⟩, []⟩).sh.db.balanceOf 2 "TRX"
          ≠ (⟨[], []⟩ : DB).balanceOf 2 "TRX" →
        1 ≤ (run
          { userId := 2, txHash := "sig3", fromAddress := "S", toAddress := "A",
            amount := 3, blockNumber := 9, currency := "TRX", network := "Tron",
            orderId := "TRX_1", oracle := none }
          [true, true, true, true, true]
            ⟨.checkSeen, .checkSeen, ⟨[], []⟩, []⟩).sh.db.countTx "sig3") :=
  deposit_create_credit_two_transactions
    { userId := 2, txHash := "sig3", fromAddress := "S", toAddress := "A",
      amount := 3, blockNumber := 9, currency := "TRX", network := "Tron",
      orderId := "TRX_1", oracle := none }
    ⟨[], []⟩ [] [true, true, true, true, true] (by decide) (by decide)

theorem DB.countTx_updateDepositStatus (t st : String) (conf : Option Nat) (db : DB)
    (t' : String) : (updateDepositStatus t st conf db).countTx t' = db.countTx t' := by
  rw [updateDepositStatus, DB.countTx, DB.countTx]
  show List.countP _ (db.deposits.map _) = _
  rw [List.countP_map]
  congr 1
  funext r
  by_cases h : (r.txHash == t) = true <;> simp [Function.comp, h]

theorem processSolanaTransaction_fresh (userId : Nat) (signature : String)
    (fromAddress : Option String) (toAddress : String) (amount : ℚ) (slot : Int)
    (orderId : String) (oracle : Option ℚ) (db : DB)
    (hfresh : db.countTx signature = 0) :
    (processSolanaTransaction userId signature fromAddress toAddress amount slot
        orderId oracle db).findDeposit signature
      = some { pendingRow userId signature fromAddress toAddress "SOL" "Solana" amount
          (some slot) (some 1) orderId oracle with
          status := "confirmed", confirmations := 1 }
    ∧ (processSolanaTransaction userId signature fromAddress toAddress amount slot
        orderId oracle db).balanceOf userId "SOL"
      = db.balanceOf userId "SOL" + amount
    ∧ (processSolanaTransaction userId signature fromAddress toAddress amount slot
        orderId oracle db).countTx signature = 1 := by
  have hrow : (pendingRow userId signature fromAddress toAddress "SOL" "Solana" amount
      (some slot) (some 1) orderId oracle).txHash = signature := rfl
  have hc := DB.createDeposit_of_fresh
    (show db.countTx (pendingRow userId signature fromAddress toAddress "SOL" "Solana" amount
      (some slot) (some 1) orderId oracle).txHash = 0 by rw [hrow]; exact hfresh)
  have hps : processSolanaTransaction userId signature fromAddress toAddress amount slot
      orderId oracle db
      = (updateDepositStatus signature "confirmed" (some 1)
          { db with deposits := ((pendingRow userId signature fromAddress toAddress "SOL"
              "Solana" amount (some slot) (some 1) orderId oracle) :: db.deposits) }).creditBalance
          userId "SOL" amount := by
    rw [processSolanaTransaction, if_neg (by omega), createDeposit, hc]
  rw [hps]
  refine ⟨?_, ?_, ?_⟩
  · rw [DB.findDeposit_creditBalance]
    rw [updateDepositStatus]
    show DB.findDeposit ⟨List.map _ (_ :: db.deposits), db.balances⟩ signature = _
    rw [List.map_cons, DB.findDeposit]
    rw [List.find?_cons_of_pos]
    · congr 1
      rw [if_pos (by rw [hrow]; exact beq_self_eq_true signature)]
      rfl
    · rw [if_pos (by rw [hrow]; exact beq_self_eq_true signature)]
      show ((pendingRow userId signature fromAddress toAddress "SOL" "Solana" amount
          (some slot) (some 1) orderId oracle).txHash == signature) = true
      rw [hrow]
      exact beq_self_eq_true signature
  · rw [DB.balanceOf_creditBalance]
    rfl
  · rw [DB.countTx_creditBalance, DB.countTx_updateDepositStatus]
    show List.countP _ (_ :: db.deposits) = 1
    rw [List.countP_cons]
    have h0 : db.countTx signature = 0 := hfresh
    rw [DB.countTx] at h0
    rw [h0]
    simp [hrow]

/-- C3 (amended): when the rate oracle fails while a deposit of amount `a`
in currency `c` is processed, the deposit record is still created with
`amount = a` and the balance is still credited by `a`, in both pipelines;
but the stored USD-enrichment differs from the claim in the listener
pipeline: the listeners' processDeposit falls back to `rate = 1`,
`realArrival = amount` (not null), while the db-layer createDeposit pipeline
stores `rate = null`, `realArrival = null` as the claim states. -/
theorem oracle_failure_degradation (c : Candidate) (db : DB) (seen : List String)
    (userId : Nat) (signature : String) (fromAddress : Option String)
    (toAddress : String) (amount : ℚ) (slot : Int) (orderId : String) (dbB : DB)
    (hfresh : db.countTx c.txHash = 0) (horacle : c.oracle = none)
    (hfreshB : dbB.countTx signature = 0) :
    ((processDeposit c true db seen).2.1.findDeposit c.txHash = some c.row
      ∧ c.row.amount = c.amount ∧ c.row.rate = some 1 ∧ c.row.realArrival = some c.amount
      ∧ (processDeposit c true db seen).2.1.balanceOf c.userId c.currency
          = db.balanceOf c.userId c.currency + c.amount)
    ∧ ((∃ r, (processSolanaTransaction userId signature fromAddress toAddress amount slot
            orderId none dbB).findDeposit signature = some r
          ∧ r.amount = amount ∧ r.rate = none ∧ r.realArrival = none)
      ∧ (processSolanaTransaction userId signature fromAddress toAddress amount slot
            orderId none dbB).balanceOf userId "SOL"
          = dbB.balanceOf userId "SOL" + amount) := by
  have hc := DB.createDeposit_of_fresh
    (show db.countTx c.row.txHash = 0 by rw [Candidate.row_txHash]; exact hfresh)
  have hbal := DB.balanceOf_createDeposit_ok hc c.userId c.currency
  have hp1 : processDeposit c true db seen
      = (.ok (), ({ db with deposits := c.row :: db.deposits } : DB).creditBalance
          c.userId c.currency c.amount, c.txHash :: seen) := by
    rw [processDeposit, hc]
    rfl
  have hB := processSolanaTransaction_fresh userId signature fromAddress toAddress amount
    slot orderId none dbB hfreshB
  refine ⟨⟨?_, rfl, ?_, ?_, ?_⟩, ⟨?_, hB.2.1⟩⟩
  · rw [hp1]
    show (({ db with deposits := c.row :: db.deposits } : DB).creditBalance
        c.userId c.currency c.amount).findDeposit c.txHash = some c.row
    rw [DB.findDeposit_creditBalance]
    show List.find? _ (c.row :: db.deposits) = some c.row
    rw [List.find?_cons_of_pos]
    rw [Candidate.row_txHash]
    exact beq_self_eq_true c.txHash
  · rw [Candidate.row, horacle]
    rfl
  · rw [Candidate.row, horacle]
    rfl
  · rw [hp1]
    show (({ db with deposits := c.row :: db.deposits } : DB).creditBalance
        c.userId c.currency c.amount).balanceOf c.userId c.currency
      = db.balanceOf c.userId c.currency + c.amount
    rw [DB.balanceOf_creditBalance, hbal]
  · refine ⟨{ pendingRow userId signature fromAddress toAddress "SOL" "Solana" amount
        (some slot) (some 1) orderId none with
        status := "confirmed", confirmations := 1 }, hB.1, rfl, rfl, rfl⟩

/-- Counterexample to C3 as stated: a 5 ETH deposit processed by the listener
pipeline while the oracle fails yields a deposit record whose stored rate is
1 and whose realArrival is 5 — neither field is null. -/
theorem listener_oracle_failure_rate_not_null :
    (((processDeposit
        { userId := 7, txHash := "sig5", fromAddress := "S", toAddress := "A",
          amount := 5, blockNumber := 3, currency := "ETH", network := "Ethereum",
          orderId := "ETH_2", oracle := none }
        true ⟨[], []⟩ []).2.1.findDeposit "sig5").map DepositRow.rate = some (some 1))
    ∧ (((processDeposit
        { userId := 7, txHash := "sig5", fromAddress := "S", toAddress := "A",
          amount := 5, blockNumber := 3, currency := "ETH", network := "Ethereum",
          orderId := "ETH_2", oracle := none }
        true ⟨[], []⟩ []).2.1.findDeposit "sig5").map DepositRow.rate ≠ some none)
    ∧ (((processDeposit
        { userId := 7, txHash := "sig5", fromAddress := "S", toAddress := "A",
          amount := 5, blockNumber := 3, currency := "ETH", network := "Ethereum",
          orderId := "ETH_2", oracle := none }
        true ⟨[], []⟩ []).2.1.findDeposit "sig5").map DepositRow.realArrival
        = some (some 5)) := by
  refine ⟨by decide, ?_, by decide⟩
  intro h
  exact absurd h (by decide)

/-- Witness for `oracle_failure_degradation`: a 5 ETH listener deposit and a
3/2 SOL db-layer deposit, both against empty stores with a failing oracle. -/
theorem oracle_failure_degradation_witness :
    (((processDeposit ethCandidateNoOracle true ⟨[], []⟩ []).2.1.findDeposit "sig6"
        = some ethCandidateNoOracle.row)
      ∧ ethCandidateNoOracle.row.amount = 5
      ∧ ethCandidateNoOracle.row.rate = some 1
      ∧ ethCandidateNoOracle.row.realArrival = some 5
      ∧ (processDeposit ethCandidateNoOracle true ⟨[], []⟩ []).2.1.balanceOf 7 "ETH"
          = (⟨[], []⟩ : DB).balanceOf 7 "ETH" + 5)
    ∧ ((∃ r, (processSolanaTransaction 9 "sigB" (some "F") "T" (3/2) 11 "DEP_1" none
          ⟨[], []⟩).findDeposit "sigB" = some r
          ∧ r.amount = 3/2 ∧ r.rate = none ∧ r.realArrival = none)
      ∧ (processSolanaTransaction 9 "sigB" (some "F") "T" (3/2) 11 "DEP_1" none
          ⟨[], []⟩).balanceOf 9 "SOL" = (⟨[], []⟩ : DB).balanceOf 9 "SOL" + 3/2) :=
  oracle_failure_degradation ethCandidateNoOracle
    ⟨[], []⟩ [] 9 "sigB" (some "F") "T" (3/2) 11 "DEP_1" ⟨[], []⟩
    (by decide) rfl (by decide)

theorem withdrawSol_success (userId : Nat) (toAddr : String) (a : ℚ)
    (poolLamports : ℤ) (sig : String)
    (h1 : ⌊(a + SOL_WITHDRAWAL_FEE) * (LAMPORTS_PER_SOL : ℚ)⌋ ≤ poolLamports)
    (h2 : MIN_SOL_BALANCE ≤ (poolLamports : ℚ) / (LAMPORTS_PER_SOL : ℚ)
        - (a + SOL_WITHDRAWAL_FEE)) :
    withdrawSol userId toAddr a true poolLamports true sig
      = { submitted := [(toAddr, ⌊(a + SOL_WITHDRAWAL_FEE) * (LAMPORTS_PER_SOL : ℚ)⌋)],
          records := [⟨userId, toAddr, -a, "SOL", sig, "withdraw"⟩],
          debits := [(userId, a, "SOL")], result := .ok sig } := by
  rw [withdrawSol]
  rw [if_neg (by simp)]
  rw [if_neg (not_lt.mpr h1)]
  rw [if_neg (not_lt.mpr h2)]
  rw [if_neg (by simp)]

theorem withdrawUsdc_success (userId : Nat) (toAddr : String) (a : ℚ)
    (poolUsdcBase : ℤ) (hasAcct : Bool) (sig : String)
    (h3 : a + USDC_WITHDRAWAL_FEE ≤ (poolUsdcBase : ℚ) / 1000000)
    (h4 : MIN_USDC_BALANCE ≤ (poolUsdcBase : ℚ) / 1000000 - (a + USDC_WITHDRAWAL_FEE)) :
    withdrawUsdc userId toAddr a true poolUsdcBase hasAcct true sig
      = { submitted := [(toAddr, ⌊(a + USDC_WITHDRAWAL_FEE) * 1000000⌋)],
          records := [⟨userId, toAddr, -a, "USDC", sig, "withdraw"⟩],
          debits := [(userId, a, "USDC")],
          createdTokenAccount := !hasAcct, result := .ok sig } := by
  rw [withdrawUsdc]
  rw [if_neg (by simp)]
  rw [if_neg (not_lt.mpr h3)]
  rw [if_neg (not_lt.mpr h4)]
  rw [if_neg (by simp)]

/-- C4 (amended): on every successful Solana withdrawal the on-chain transfer
submitted from the main pool towards the destination is for `amount + fixedFee`
(the fee is added on top and received by the recipient, paid out of the
pool), not for `amount` alone; the persisted Transaction row carries
`-amount` with type "withdraw" and the signature is returned. -/
theorem withdraw_submits_amount_plus_fee (userId : Nat) (toAddr : String) (a : ℚ)
    (poolLamports poolUsdcBase : ℤ) (hasAcct : Bool) (sig sig2 : String)
    (h1 : ⌊(a + SOL_WITHDRAWAL_FEE) * (LAMPORTS_PER_SOL : ℚ)⌋ ≤ poolLamports)
    (h2 : MIN_SOL_BALANCE ≤ (poolLamports : ℚ) / (LAMPORTS_PER_SOL : ℚ)
        - (a + SOL_WITHDRAWAL_FEE))
    (h3 : a + USDC_WITHDRAWAL_FEE ≤ (poolUsdcBase : ℚ) / 1000000)
    (h4 : MIN_USDC_BALANCE ≤ (poolUsdcBase : ℚ) / 1000000 - (a + USDC_WITHDRAWAL_FEE)) :
    withdrawSol userId toAddr a true poolLamports true sig
      = { submitted := [(toAddr, ⌊(a + SOL_WITHDRAWAL_FEE) * (LAMPORTS_PER_SOL : ℚ)⌋)],
          records := [⟨userId, toAddr, -a, "SOL", sig, "withdraw"⟩],
          debits := [(userId, a, "SOL")], result := .ok sig }
    ∧ withdrawUsdc userId toAddr a true poolUsdcBase hasAcct true sig2
      = { submitted := [(toAddr, ⌊(a + USDC_WITHDRAWAL_FEE) * 1000000⌋)],
          records := [⟨userId, toAddr, -a, "USDC", sig2, "withdraw"⟩],
          debits := [(userId, a, "USDC")],
          createdTokenAccount := !hasAcct, result := .ok sig2 } :=
  ⟨withdrawSol_success userId toAddr a poolLamports sig h1 h2,
   withdrawUsdc_success userId toAddr a poolUsdcBase hasAcct sig2 h3 h4⟩

/-- Witness for `withdraw_submits_amount_plus_fee`: a 1 SOL and a 1 USDC
withdrawal against a 100 SOL / 100 USDC pool. -/
theorem withdraw_submits_amount_plus_fee_witness :
    withdrawSol 1 "addr" 1 true 100000000000 true "s1"
      = { submitted := [("addr", ⌊((1 : ℚ) + SOL_WITHDRAWAL_FEE) * (LAMPORTS_PER_SOL : ℚ)⌋)],
          records := [⟨1, "addr", -1, "SOL", "s1", "withdraw"⟩],
          debits := [(1, 1, "SOL")], result := .ok "s1" }
    ∧ withdrawUsdc 1 "addr" 1 true 100000000 true true "s2"
      = { submitted := [("addr", ⌊((1 : ℚ) + USDC_WITHDRAWAL_FEE) * 1000000⌋)],
          records := [⟨1, "addr", -1, "USDC", "s2", "withdraw"⟩],
          debits := [(1, 1, "USDC")],
          createdTokenAccount := !true, result := .ok "s2" } :=
  withdraw_submits_amount_plus_fee 1 "addr" 1 100000000000 100000000 true "s1" "s2"
    (by norm_num [SOL_WITHDRAWAL_FEE, LAMPORTS_PER_SOL])
    (by norm_num [SOL_WITHDRAWAL_FEE, LAMPORTS_PER_SOL, MIN_SOL_BALANCE])
    (by norm_num [USDC_WITHDRAWAL_FEE])
    (by norm_num [USDC_WITHDRAWAL_FEE, MIN_USDC_BALANCE])

/-- Counterexample for C4 as stated: a successful 1 SOL withdrawal submits a
transfer of 1005000000 lamports (1.005 SOL — amount plus the 0.005 fee) at
the recipient address, not 1000000000 lamports (exactly 1 SOL). -/
theorem withdrawSol_transfer_not_exactly_amount :
    (withdrawSol 1 "addr" 1 true 100000000000 true "s1").submitted
      = [("addr", 1005000000)]
    ∧ (withdrawSol 1 "addr" 1 true 100000000000 true "s1").submitted
      ≠ [("addr", 1000000000)] := by
  have h := withdrawSol_success 1 "addr" 1 100000000000 "s1"
    (by norm_num [SOL_WITHDRAWAL_FEE, LAMPORTS_PER_SOL])
    (by norm_num [SOL_WITHDRAWAL_FEE, LAMPORTS_PER_SOL, MIN_SOL_BALANCE])
  rw [h]
  constructor
  · show [("addr", ⌊((1 : ℚ) + SOL_WITHDRAWAL_FEE) * (LAMPORTS_PER_SOL : ℚ)⌋)] = _
    norm_num [SOL_WITHDRAWAL_FEE, LAMPORTS_PER_SOL]
  · show [("addr", ⌊((1 : ℚ) + SOL_WITHDRAWAL_FEE) * (LAMPORTS_PER_SOL : ℚ)⌋)] ≠ _
    norm_num [SOL_WITHDRAWAL_FEE, LAMPORTS_PER_SOL]

theorem withdrawUsdc_reject (userId : Nat) (toAddr : String) (a : ℚ)
    (poolUsdcBase : ℤ) (hasAcct submitOk : Bool) (sig : String)
    (hlow : (poolUsdcBase : ℚ) / 1000000 - (a + USDC_WITHDRAWAL_FEE) < MIN_USDC_BALANCE) :
    (withdrawUsdc userId toAddr a true poolUsdcBase hasAcct submitOk sig).submitted = []
    ∧ (withdrawUsdc userId toAddr a true poolUsdcBase hasAcct submitOk sig).records = []
    ∧ (withdrawUsdc userId toAddr a true poolUsdcBase hasAcct submitOk sig).debits = []
    ∧ ((withdrawUsdc userId toAddr a true poolUsdcBase hasAcct submitOk sig).result
          = .error .insufficientPool
      ∨ (withdrawUsdc userId toAddr a true poolUsdcBase hasAcct submitOk sig).result
          = .error .belowMinReserve) := by
  simp only [withdrawUsdc, Bool.not_true, Bool.false_eq_true, if_false]
  by_cases hc1 : (poolUsdcBase : ℚ) / 1000000 < a + USDC_WITHDRAWAL_FEE
  · rw [if_pos hc1]
    exact ⟨rfl, rfl, rfl, Or.inl rfl⟩
  · rw [if_neg hc1, if_pos hlow]
    exact ⟨rfl, rfl, rfl, Or.inr rfl⟩

theorem withdrawSol_reject (userId : Nat) (toAddr : String) (a : ℚ)
    (poolLamports : ℤ) (submitOk : Bool) (sig : String)
    (hlow : (poolLamports : ℚ) / (LAMPORTS_PER_SOL : ℚ) - (a + SOL_WITHDRAWAL_FEE)
        < MIN_SOL_BALANCE) :
    (withdrawSol userId toAddr a true poolLamports submitOk sig).submitted = []
    ∧ (withdrawSol userId toAddr a true poolLamports submitOk sig).records = []
    ∧ (withdrawSol userId toAddr a true poolLamports submitOk sig).debits = []
    ∧ ((withdrawSol userId toAddr a true poolLamports submitOk sig).result
          = .error .insufficientPool
      ∨ (withdrawSol userId toAddr a true poolLamports submitOk sig).result
          = .error .belowMinReserve) := by
  simp only [withdrawSol, Bool.not_true, Bool.false_eq_true, if_false]
  by_cases hc1 : poolLamports < ⌊(a + SOL_WITHDRAWAL_FEE) * (LAMPORTS_PER_SOL : ℚ)⌋
  · rw [if_pos hc1]
    exact ⟨rfl, rfl, rfl, Or.inl rfl⟩
  · rw [if_neg hc1, if_pos hlow]
    exact ⟨rfl, rfl, rfl, Or.inr rfl⟩

theorem withdrawUsdc_ok_reserve (userId : Nat) (toAddr : String) (a : ℚ)
    (validTo : Bool) (poolUsdcBase : ℤ) (hasAcct submitOk : Bool) (sig s' : String)
    (hok : (withdrawUsdc userId toAddr a validTo poolUsdcBase hasAcct submitOk sig).result
        = .ok s') :
    MIN_USDC_BALANCE ≤ (poolUsdcBase : ℚ) / 1000000 - (a + USDC_WITHDRAWAL_FEE) := by
  by_contra hnot
  push_neg at hnot
  rcases (withdrawUsdc_reject userId toAddr a poolUsdcBase hasAcct submitOk sig hnot).2.2.2
    with he | he
  all_goals
    cases hv : validTo with
    | false =>
        rw [withdrawUsdc] at hok
        rw [hv] at hok
        simp at hok
    | true =>
        rw [hv] at hok
        rw [hok] at he
        exact absurd he (by simp)

theorem withdrawSol_ok_reserve (userId : Nat) (toAddr : String) (a : ℚ)
    (validTo : Bool) (poolLamports : ℤ) (submitOk : Bool) (sig s' : String)
    (hok : (withdrawSol userId toAddr a validTo poolLamports submitOk sig).result
        = .ok s') :
    MIN_SOL_BALANCE ≤ (poolLamports : ℚ) / (LAMPORTS_PER_SOL : ℚ)
        - (a + SOL_WITHDRAWAL_FEE) := by
  by_contra hnot
  push_neg at hnot
  rcases (withdrawSol_reject userId toAddr a poolLamports submitOk sig hnot).2.2.2
    with he | he
  all_goals
    cases hv : validTo with
    | false =>
        rw [withdrawSol] at hok
        rw [hv] at hok
        simp at hok
    | true =>
        rw [hv] at hok
        rw [hok] at he
        exact absurd he (by simp)

/-- C5 (amended): the Solana withdrawal paths behave as claimed — a request
whose pool balance minus (amount + fixed fee) falls below the minimum
reserve is rejected with an insufficient-liquidity error before any chain
submission, with no Transaction row and no ledger debit, and every
completed withdrawal leaves the pool at or above the reserve; the Tron
token withdrawal, by contrast, performs no pool-balance or reserve check
at all and submits unconditionally (see
`withdrawTokenTron_submits_without_reserve_check`). -/
theorem reserve_preservation_solana (userId : Nat) (toAddr : String)
    (a aU aS : ℚ) (poolUsdcBase poolLamports : ℤ) (pU2 pL2 : ℤ)
    (hasAcct submitOk hasAcct2 : Bool) (sig sigS sig3 sig4 sOk sOk2 : String)
    (validU validS : Bool)
    (hlowU : (poolUsdcBase : ℚ) / 1000000 - (a + USDC_WITHDRAWAL_FEE) < MIN_USDC_BALANCE)
    (hlowS : (poolLamports : ℚ) / (LAMPORTS_PER_SOL : ℚ) - (a + SOL_WITHDRAWAL_FEE)
        < MIN_SOL_BALANCE)
    (hokU : (withdrawUsdc userId toAddr aU validU pU2 hasAcct2 true sig3).result = .ok sOk)
    (hokS : (withdrawSol userId toAddr aS validS pL2 true sig4).result = .ok sOk2) :
    ((withdrawUsdc userId toAddr a true poolUsdcBase hasAcct submitOk sig).submitted = []
      ∧ (withdrawUsdc userId toAddr a true poolUsdcBase hasAcct submitOk sig).records = []
      ∧ (withdrawUsdc userId toAddr a true poolUsdcBase hasAcct submitOk sig).debits = []
      ∧ ((withdrawUsdc userId toAddr a true poolUsdcBase hasAcct submitOk sig).result
            = .error .insufficientPool
        ∨ (withdrawUsdc userId toAddr a true poolUsdcBase hasAcct submitOk sig).result
            = .error .belowMinReserve))
    ∧ ((withdrawSol userId toAddr a true poolLamports submitOk sigS).submitted = []
      ∧ (withdrawSol userId toAddr a true poolLamports submitOk sigS).records = []
      ∧ (withdrawSol userId toAddr a true poolLamports submitOk sigS).debits = []
      ∧ ((withdrawSol userId toAddr a true poolLamports submitOk sigS).result
            = .error .insufficientPool
        ∨ (withdrawSol userId toAddr a true poolLamports submitOk sigS).result
            = .error .belowMinReserve))
    ∧ MIN_USDC_BALANCE ≤ (pU2 : ℚ) / 1000000 - (aU + USDC_WITHDRAWAL_FEE)
    ∧ MIN_SOL_BALANCE ≤ (pL2 : ℚ) / (LAMPORTS_PER_SOL : ℚ) - (aS + SOL_WITHDRAWAL_FEE) :=
  ⟨withdrawUsdc_reject userId toAddr a poolUsdcBase hasAcct submitOk sig hlowU,
   withdrawSol_reject userId toAddr a poolLamports submitOk sigS hlowS,
   withdrawUsdc_ok_reserve userId toAddr aU validU pU2 hasAcct2 true sig3 sOk hokU,
   withdrawSol_ok_reserve userId toAddr aS validS pL2 true sig4 sOk2 hokS⟩

/-- Witness for `reserve_preservation_solana`: the spec scenario — a
100 USDC withdrawal against a 90 USDC pool with a 1 USDC minimum reserve is
rejected with nothing submitted, persisted or debited (and the same request
in SOL against an empty pool); the preservation half is witnessed by
successful 1 USDC / 1 SOL withdrawals against 100-unit pools. -/
theorem reserve_preservation_solana_witness :
    ((withdrawUsdc 1 "addr" 100 true 90000000 true true "sg").submitted = []
      ∧ (withdrawUsdc 1 "addr" 100 true 90000000 true true "sg").records = []
      ∧ (withdrawUsdc 1 "addr" 100 true 90000000 true true "sg").debits = []
      ∧ ((withdrawUsdc 1 "addr" 100 true 90000000 true true "sg").result
            = .error .insufficientPool
        ∨ (withdrawUsdc 1 "addr" 100 true 90000000 true true "sg").result
            = .error .belowMinReserve))
    ∧ ((withdrawSol 1 "addr" 100 true 0 true "sh").submitted = []
      ∧ (withdrawSol 1 "addr" 100 true 0 true "sh").records = []
      ∧ (withdrawSol 1 "addr" 100 true 0 true "sh").debits = []
      ∧ ((withdrawSol 1 "addr" 100 true 0 true "sh").result = .error .insufficientPool
        ∨ (withdrawSol 1 "addr" 100 true 0 true "sh").result = .error .belowMinReserve))
    ∧ MIN_USDC_BALANCE ≤ ((100000000 : ℤ) : ℚ) / 1000000 - (1 + USDC_WITHDRAWAL_FEE)
    ∧ MIN_SOL_BALANCE ≤ ((100000000000 : ℤ) : ℚ) / (LAMPORTS_PER_SOL : ℚ)
        - (1 + SOL_WITHDRAWAL_FEE) :=
  reserve_preservation_solana 1 "addr" 100 1 1 90000000 0 100000000 100000000000
    true true true "sg" "sh" "s3" "s4" "s3" "s4" true true
    (by norm_num [USDC_WITHDRAWAL_FEE, MIN_USDC_BALANCE])
    (by norm_num [SOL_WITHDRAWAL_FEE, LAMPORTS_PER_SOL, MIN_SOL_BALANCE])
    (by rw [withdrawUsdc_success 1 "addr" 1 100000000 true "s3"
        (by norm_num [USDC_WITHDRAWAL_FEE])
        (by norm_num [USDC_WITHDRAWAL_FEE, MIN_USDC_BALANCE])])
    (by rw [withdrawSol_success 1 "addr" 1 100000000000 "s4"
        (by norm_num [SOL_WITHDRAWAL_FEE, LAMPORTS_PER_SOL])
        (by norm_num [SOL_WITHDRAWAL_FEE, LAMPORTS_PER_SOL, MIN_SOL_BALANCE])])

/-- Counterexample for C5 as stated: the Tron token withdrawal consults no
pool balance at all (the pool balance is not an input of the function), so a
100 USDT withdrawal is submitted on-chain and a `-100` "withdraw" row is
persisted even when the pool holds only 90 USDT — nothing is rejected
before submission. -/
theorem withdrawTokenTron_submits_without_reserve_check :
    (withdrawTokenTron 1 "TDest" 100 true "t1").submitted = [("TDest", 100000000)]
    ∧ (withdrawTokenTron 1 "TDest" 100 true "t1").records
        = [⟨1, "TDest", -100, "USDT", "-", "withdraw"⟩]
    ∧ (withdrawTokenTron 1 "TDest" 100 true "t1").result = .ok "t1" := by
  refine ⟨?_, ?_, ?_⟩ <;>
    (simp only [withdrawTokenTron, jsToFixed0, Bool.not_true, Bool.false_eq_true, if_false]
     try norm_num)

/-- C9: withdrawTrx submits `parseInt(amount.toString()) * 10^6` Sun — the
fractional part of the amount is dropped by integer truncation (floor, for
the positive plain-decimal amounts where `parseInt` of the printed number is
exact) before the 10^6 scaling — while the persisted Transaction row debits
the full `-amount`; the transferred TRX equals the recorded magnitude
exactly when the amount is an integer. -/
theorem withdrawTrx_truncates_before_scaling (userId : Nat) (toAddr : String)
    (a : ℚ) (txid : String)
    (h0 : 0 < a) (hlo : 1 / 1000000 ≤ a) (hhi : a < 10 ^ 21) :
    (withdrawTrx userId toAddr a true txid).submitted = [(toAddr, ⌊a⌋ * 1000000)]
    ∧ (withdrawTrx userId toAddr a true txid).records
        = [⟨userId, toAddr, -a, "TRX", txid, "withdraw"⟩]
    ∧ (((⌊a⌋ * 1000000 : ℤ) : ℚ) / 1000000 = a ↔ a.den = 1) := by
  refine ⟨rfl, rfl, ?_⟩
  have hred : ((⌊a⌋ * 1000000 : ℤ) : ℚ) / 1000000 = (⌊a⌋ : ℚ) := by
    push_cast
    field_simp
  rw [hred]
  constructor
  · intro h
    have hd := Rat.den_intCast ⌊a⌋
    rw [h] at hd
    exact hd
  · intro h
    lift a to ℤ using h with n
    simp

/-- Witness for `withdrawTrx_truncates_before_scaling` at a 3/2 TRX
withdrawal: 1000000 Sun are submitted while -3/2 TRX is recorded. -/
theorem withdrawTrx_truncates_before_scaling_witness :
    (withdrawTrx 4 "TAddr" (3/2) true "tx9").submitted = [("TAddr", ⌊(3/2 : ℚ)⌋ * 1000000)]
    ∧ (withdrawTrx 4 "TAddr" (3/2) true "tx9").records
        = [⟨4, "TAddr", -(3/2), "TRX", "tx9", "withdraw"⟩]
    ∧ (((⌊(3/2 : ℚ)⌋ * 1000000 : ℤ) : ℚ) / 1000000 = 3/2 ↔ (3/2 : ℚ).den = 1) :=
  withdrawTrx_truncates_before_scaling 4 "TAddr" (3/2) "tx9"
    (by norm_num) (by norm_num) (by norm_num)

/-- C6 (amended): RPC failures while listing an address's recent
transactions are swallowed, not propagated: each listing function catches
the error and returns the empty list, so the poller receives a result
indistinguishable from "no transactions found" and no ChainUnavailable
condition ever reaches it (the next timer tick still retries, but on the
same degraded terms). -/
theorem rpc_failure_becomes_empty_list (shastaRes mainnetRes : Except Unit (List TronTx))
    (blockNumberRes : Except Unit Int) (logsRes : Except Unit (List String))
    (txOf : String → Except Unit (Option EthTx))
    (signaturesRes : Except Unit (List String))
    (txOfS : String → Except Unit (Option String)) :
    (∃ l, tron_getRecentTransactions shastaRes mainnetRes = .ok l)
    ∧ tron_getRecentTransactions (.error ()) (.error ()) = .ok []
    ∧ (∃ l, ethereum_getRecentTransactions blockNumberRes logsRes txOf = .ok l)
    ∧ ethereum_getRecentTransactions (.error ()) logsRes txOf = .ok []
    ∧ ethereum_getRecentTransactions blockNumberRes (.error ()) txOf = .ok []
    ∧ (∃ l, solana_getRecentTransactionsForAddress signaturesRes txOfS = .ok l)
    ∧ solana_getRecentTransactionsForAddress (.error ()) txOfS = .ok [] := by
  refine ⟨⟨_, rfl⟩, rfl, ?_, ?_, ?_, ?_, rfl⟩
  · cases blockNumberRes with
    | error e => exact ⟨[], rfl⟩
    | ok bn =>
        cases logsRes with
        | error e => exact ⟨[], rfl⟩
        | ok logs => exact ⟨_, rfl⟩
  · rfl
  · cases blockNumberRes with
    | error e => rfl
    | ok bn => rfl
  · cases signaturesRes with
    | error e => exact ⟨[], rfl⟩
    | ok sigs => exact ⟨_, rfl⟩

/-- Counterexample for C6 as stated: with both Tron endpoints failing, the
listing returns the empty "no transactions found" result, not an error —
the failure does not propagate to the poller. -/
theorem tron_rpc_failure_not_propagated :
    tron_getRecentTransactions (.error ()) (.error ()) = .ok []
    ∧ tron_getRecentTransactions (.error ()) (.error ()) ≠ .error () := by
  refine ⟨rfl, ?_⟩
  intro h
  cases h

/-- C7 (amended): the solana-deposits.ts and ethereum-deposits.ts pollers
carry the claimed re-entrancy guard — a tick that fires while a cycle is in
flight is skipped, not queued — but the depositListeners pollers
(monitorSolanaDeposits, monitorTronDeposits, monitorEthereumDeposits) have
no guard: invoked while a previous cycle is still running, they start a new
concurrent scan instead of returning immediately. -/
theorem poller_reentrancy_guard_partial (addresses : List (Nat × String)) :
    pollForDeposits true addresses = (.skippedCycle, true)
    ∧ pollForDeposits false addresses = (.scanned addresses, true)
    ∧ monitorSolanaDeposits true addresses = .scanned addresses
    ∧ monitorSolanaDeposits true addresses ≠ .skippedCycle := by
  refine ⟨rfl, rfl, rfl, ?_⟩
  intro h
  cases h

/-- Counterexample for C7 as stated: monitorSolanaDeposits invoked while a
previous cycle is still in flight scans its address list anyway — the
invocation is not skipped, a second concurrent cycle begins. -/
theorem monitor_poller_not_guarded :
    monitorSolanaDeposits true [(7, "addr")] = .scanned [(7, "addr")]
    ∧ monitorSolanaDeposits true [(7, "addr")] ≠ .skippedCycle := by
  refine ⟨rfl, ?_⟩
  intro h
  cases h

end Ok777
